import Mathlib

/-!
Verification of the NextWorth market-data caching and deduplication layer.

This file gives a shallow embedding of the cache orchestration code
(`src/services/marketDataService.js`, `src/services/predictionService.js`,
`src/services/yahooFinanceService.js`, `src/controllers/marketController.js`)
and proves properties of that embedding.

Modelling conventions:
  * JavaScript numbers are embedded as exact rationals (`Rat`) for prices and
    as `Nat` for counts, identifiers and timestamps.  Timestamps are epoch
    seconds; a calendar date (a month bucket) is a `Nat` day index, and the
    JS conversion `new Date(d).getTime()` is the identity on that index,
    which preserves the chronological order the code relies on.
  * Database queries are embedded as pure functions over the list of rows
    persisted for the one asset at hand; `ORDER BY x ASC` becomes a stable
    insertion sort on the key.
  * `async`/`await` control flow is sequentialised; the in-flight promise
    registry, whose check-and-set section contains no suspension point in
    the source, is modelled as an atomic step relation over an event trace.
-/

namespace NextWorth

/-- Stable ascending insertion by a `Nat` key (an element is placed after all
existing elements whose key is not larger), embedding both SQL `ORDER BY`
and the stable JS `Array.prototype.sort` with comparator `a.key - b.key`. -/
def insertAsc {α : Type} (key : α → Nat) (a : α) : List α → List α
  | [] => [a]
  | b :: bs => if key a < key b then a :: b :: bs else b :: insertAsc key a bs

/-- Sort a list ascending by `key` (stable). -/
def sortAsc {α : Type} (key : α → Nat) (l : List α) : List α :=
  l.foldl (fun acc a => insertAsc key a acc) []

/-- JS falsy-chaining on strings: `a || b` where the empty string is falsy. -/
def orElseStr (a b : String) : String :=
  if a = "" then b else a

/-- The JS `String.prototype.toUpperCase()`, embedded as the character-wise
uppercase map. -/
def strUpper (s : String) : String :=
  ⟨s.data.map Char.toUpper⟩

/-- Currencies accepted by the store constraint
`asset_price_history_currency_chk CHECK (currency IN ('USD', 'EUR'))`. -/
def allowedCurrencies : List String := ["USD", "EUR"]

/-- One persisted row of `asset_price_history` for the asset at hand, as read
by the cache queries (`month, open, high, low, close, volume, currency,
fetched_at`). -/
structure DbRow where
  month : Nat
  openP : Rat
  highP : Rat
  lowP : Rat
  closeP : Rat
  volume : Option Int
  currency : String
  fetchedAt : Nat
deriving Repr, DecidableEq

/-- The catalog record produced by the `INSERT INTO assets ... RETURNING`
step of `fetchAssetHistoryInternal`. -/
structure Asset where
  symbol : String
  name : String
  assetType : String
  currency : String
deriving Repr, DecidableEq

/-- One element of the `series` array built by `formatResponse`. -/
structure SeriesPoint where
  date : Nat
  timestamp : Nat
  closeP : Rat
  openP : Rat
  highP : Rat
  lowP : Rat
  volume : Int
  currency : String
deriving Repr, DecidableEq

/-- The response object returned by `getAssetHistory` (built in
`formatResponse`); `cachedAt = none` stands for the fallback
`new Date().toISOString()` branch. -/
structure HistoryResponse where
  symbol : String
  name : String
  assetType : String
  currency : String
  currentPrice : Option Rat
  rangeMonths : Nat
  interval : String
  dataPoints : Nat
  series : List SeriesPoint
  source : String
  cachedAt : Option Nat
  ttl : Nat
  warning : Option String
deriving Repr, DecidableEq

/-- `calculateExpectedPoints(months, interval)` from marketDataService.
`interval = '1wk'` is `Math.floor(months * 4.3)` in the source; over exact
rationals that float computation is `(months * 43) / 10` in `Nat`. -/
def calculateExpectedPoints (months : Nat) (interval : String) : Nat :=
  if interval = "1d" then months * 21
  else if interval = "1wk" then months * 43 / 10
  else if interval = "1mo" then months
  else months

/-- Whether `pat` occurs at the start of `hay`. -/
def charsPrefix : List Char → List Char → Bool
  | [], _ => true
  | _ :: _, [] => false
  | c :: cs, d :: ds => c == d && charsPrefix cs ds

/-- Whether `pat` occurs contiguously anywhere in `hay`, embedding the JS
`String.prototype.includes`. -/
def charsContains (pat : List Char) : List Char → Bool
  | [] => pat.isEmpty
  | d :: ds => charsPrefix pat (d :: ds) || charsContains pat ds

/-- `inferAssetType(symbol)` from marketDataService: lexical suffix checks. -/
def inferAssetType (symbol : String) : String :=
  let upper := strUpper symbol
  if charsContains "-USD".data upper.data then "crypto"
  else if charsContains "=F".data upper.data then "commodities"
  else if charsContains "=X".data upper.data then "currency"
  else "stocks"

/-- `getCacheKey(symbol, months, interval)` from marketDataService:
the template literal `symbol.toUpperCase():months:interval`. -/
def getCacheKey (symbol : String) (months : Nat) (interval : String) : String :=
  strUpper symbol ++ ":" ++ Nat.repr months ++ ":" ++ interval

/-- The asset row resulting from the idempotent catalog upsert
(`VALUES ($1, $1, $2, 'USD')`). -/
def mkAsset (symbolUpper : String) : Asset :=
  { symbol := symbolUpper, name := symbolUpper
    assetType := inferAssetType symbolUpper, currency := "USD" }

/-- The `series` element built from one row inside `formatResponse`:
`volume: parseInt(row.volume || 0)` and timestamp from the row date. -/
def toSeriesPoint (r : DbRow) : SeriesPoint :=
  { date := r.month, timestamp := r.month, closeP := r.closeP, openP := r.openP
    highP := r.highP, lowP := r.lowP, volume := r.volume.getD 0
    currency := r.currency }

/-- `series[series.length - 1]?.close || null`: the last close, with both a
missing last point and a zero close collapsing to `null`. -/
def lastClose (series : List SeriesPoint) : Option Rat :=
  match series.getLast? with
  | none => none
  | some p => if p.closeP = 0 then none else some p.closeP

/-- `formatResponse(asset, rows, months, interval, source, ttl, warning)`
from marketDataService. -/
def formatResponse (asset : Asset) (rows : List DbRow) (months : Nat)
    (interval : String) (source : String) (ttl : Nat)
    (warning : Option String) : HistoryResponse :=
  let series := sortAsc (fun p => p.timestamp) (rows.map toSeriesPoint)
  { symbol := asset.symbol, name := asset.name, assetType := asset.assetType
    currency :=
      orElseStr (match series.head? with
                 | some p => p.currency
                 | none => "") (orElseStr asset.currency "USD")
    currentPrice := lastClose series
    rangeMonths := months, interval := interval
    dataPoints := series.length, series := series, source := source
    cachedAt := rows.head?.map (fun r => r.fetchedAt)
    ttl := ttl, warning := warning }

/-- The rows produced by the TTL-filtered cache query:
`month >= $2 AND fetched_at > NOW() - INTERVAL '1 second' * $3`,
ordered by month.  `fetchedAt > now - ttl` is the overflow-safe
`now < fetchedAt + ttl`. -/
def freshRows (db : List DbRow) (startP ttl now : Nat) : List DbRow :=
  sortAsc (fun r => r.month)
    (db.filter fun r => decide (startP ≤ r.month) && decide (now < r.fetchedAt + ttl))

/-- The rows produced by the stale-fallback query (`month >= $2` only,
no TTL filter), ordered by month. -/
def staleRows (db : List DbRow) (startP : Nat) : List DbRow :=
  sortAsc (fun r => r.month) (db.filter fun r => decide (startP ≤ r.month))

/-- `cacheResult.rows.length >= (expectedPoints * 0.8)` — the JS float
comparison, which for these operand magnitudes coincides with the exact
rational comparison `expected * (8/10) ≤ count`, embedded here by
cross-multiplication over `Nat` (see `hasSufficientData_iff`). -/
def hasSufficientData (count expected : Nat) : Bool :=
  decide (expected * 8 ≤ count * 10)

/-- The combined hit condition `hasSufficientData && cacheResult.rows.length > 0`
of `fetchAssetHistoryInternal`. -/
def histCacheHit (db : List DbRow) (startP ttl now months : Nat)
    (interval : String) : Bool :=
  hasSufficientData (freshRows db startP ttl now).length
      (calculateExpectedPoints months interval)
    && !(freshRows db startP ttl now).isEmpty

/-- One raw item of the `yahooFinance.historical` library result, before
normalization in `getHistoricalData`. -/
structure RawPoint where
  date : Nat
  openP : Rat
  highP : Rat
  lowP : Rat
  closeP : Rat
  volume : Option Int
deriving Repr, DecidableEq

/-- One normalized point returned by the upstream adapter
(`getHistoricalData` maps items to `{date, open, high, low, close,
volume || 0, currency}`). -/
structure YPoint where
  date : Nat
  openP : Rat
  highP : Rat
  lowP : Rat
  closeP : Rat
  volume : Int
  currency : String
deriving Repr, DecidableEq

/-- `getHistoricalData(symbol, startDate, endDate, interval)` from
yahooFinanceService.  The argument `raw` is the outcome of the
`yahooFinance.historical` library call: `none` embeds a thrown network or
provider error, `some l` a returned array `l`.  An empty array is turned
into a thrown `No historical data available` error before normalization;
`currency` is hardcoded to `USD` by this adapter. -/
def getHistoricalData (raw : Option (List RawPoint)) :
    Except String (List YPoint) :=
  match raw with
  | none => .error "historical fetch failed"
  | some result =>
    if result.isEmpty then .error "No historical data available"
    else
      .ok (result.map fun item =>
        { date := item.date, openP := item.openP, highP := item.highP
          lowP := item.lowP, closeP := item.closeP
          volume := item.volume.getD 0, currency := "USD" })

/-- A store-level failure of one upsert: the currency CHECK-constraint
violation the loop catches (matched in the source by
`error.message.includes('asset_price_history_currency_chk')`), or any other
store failure, which the loop rethrows. -/
inductive StoreErr where
  | currencyChk
  | otherFailure (msg : String)
deriving Repr, DecidableEq

/-- The row written by the history UPSERT statement for an incoming point
(`fetched_at = NOW()`). -/
def mkRow (now : Nat) (p : YPoint) : DbRow :=
  { month := p.date, openP := p.openP, highP := p.highP, lowP := p.lowP
    closeP := p.closeP, volume := some p.volume, currency := p.currency
    fetchedAt := now }

/-- `INSERT ... ON CONFLICT (asset_id, month) DO UPDATE`: replace the row
with the same month if present, else append. -/
def upsertRow : List DbRow → DbRow → List DbRow
  | [], row => [row]
  | r :: rs, row =>
    if r.month = row.month then row :: rs else r :: upsertRow rs row

/-- One `pool.query(upsertQuery, ...)` call: the store enforces
`asset_price_history_currency_chk CHECK (currency IN ('USD', 'EUR'))` and
otherwise returns the written row. -/
def dbUpsert (db : List DbRow) (now : Nat) (p : YPoint) :
    Except StoreErr (DbRow × List DbRow) :=
  if p.currency ∈ allowedCurrencies then
    .ok (mkRow now p, upsertRow db (mkRow now p))
  else .error .currencyChk

/-- The sequential upsert loop of `fetchAssetHistoryInternal` (step 5):
a currency-constraint violation is caught and the point skipped with a
warning; any other store error is rethrown.  Returns the accumulated
`upsertedRows` and the store contents after the loop. -/
def upsertLoop (now : Nat) : List YPoint → List DbRow →
    Except StoreErr (List DbRow × List DbRow)
  | [], db => .ok ([], db)
  | p :: ps, db =>
    match dbUpsert db now p with
    | .ok (row, db2) =>
      match upsertLoop now ps db2 with
      | .ok (rows, db3) => .ok (row :: rows, db3)
      | .error e => .error e
    | .error .currencyChk => upsertLoop now ps db
    | .error (.otherFailure msg) => .error (.otherFailure msg)

/-- The errors `getAssetHistory` can propagate to its caller: the two coded
sentinel errors, plus a rethrown store failure from the upsert loop. -/
inductive FetchErr where
  | serviceUnavailable
  | symbolNotFound
  | storeFailure (e : StoreErr)
deriving Repr, DecidableEq

instance {ε α : Type} [DecidableEq ε] [DecidableEq α] :
    DecidableEq (Except ε α) := fun x y =>
  match x, y with
  | .ok a, .ok b =>
    if h : a = b then isTrue (by rw [h])
    else isFalse (fun he => by cases he; exact h rfl)
  | .error a, .error b =>
    if h : a = b then isTrue (by rw [h])
    else isFalse (fun he => by cases he; exact h rfl)
  | .ok _, .error _ => isFalse (fun he => by cases he)
  | .error _, .ok _ => isFalse (fun he => by cases he)

/-- Outcome of one history orchestration call: the settled result, how many
times the upstream adapter was invoked, and the persistent store after the
call. -/
structure FetchOutcome where
  result : Except FetchErr HistoryResponse
  adapterCalls : Nat
  dbAfter : List DbRow
deriving Repr, DecidableEq

/-- `fetchAssetHistoryInternal(symbol, months, interval, ttl)` from
marketDataService.  `now` is the clock at the call, `startP` the computed
start of the requested span, `db` the persisted rows of the asset, and
`adapterResult` the outcome the upstream adapter call would produce (an
`.error` embeds a thrown provider error; it is consumed only on a miss). -/
def fetchAssetHistoryInternal (symbol : String) (months : Nat)
    (interval : String) (ttl now startP : Nat) (db : List DbRow)
    (adapterResult : Except String (List YPoint)) : FetchOutcome :=
  let asset := mkAsset (strUpper symbol)
  if histCacheHit db startP ttl now months interval then
    { result := .ok (formatResponse asset (freshRows db startP ttl now)
        months interval "cache" ttl none)
      adapterCalls := 0, dbAfter := db }
  else
    match adapterResult with
    | .error _ =>
      let stale := staleRows db startP
      if stale.isEmpty then
        { result := .error .serviceUnavailable, adapterCalls := 1
          dbAfter := db }
      else
        { result := .ok (formatResponse asset stale months interval
            "stale_cache" ttl
            (some "Data may be outdated due to external service unavailability"))
          adapterCalls := 1, dbAfter := db }
    | .ok yahooData =>
      if yahooData.isEmpty then
        { result := .error .symbolNotFound, adapterCalls := 1, dbAfter := db }
      else
        match upsertLoop now yahooData db with
        | .error e =>
          { result := .error (.storeFailure e), adapterCalls := 1
            dbAfter := db }
        | .ok (upserted, db2) =>
          { result := .ok (formatResponse asset upserted months interval
              "yahoo" ttl none)
            adapterCalls := 1, dbAfter := db2 }

/-- `getAssetHistory` as one caller observes it (the in-flight registry is
modelled separately as a trace relation): the internal fetch composed with
the concrete Yahoo adapter `getHistoricalData` over the raw library
outcome. -/
def getAssetHistory (symbol : String) (months : Nat) (interval : String)
    (ttl now startP : Nat) (db : List DbRow)
    (raw : Option (List RawPoint)) : FetchOutcome :=
  fetchAssetHistoryInternal symbol months interval ttl now startP db
    (getHistoricalData raw)

/-- The `source` tag of a settled successful result, `none` on error. -/
def resultSource (o : FetchOutcome) : Option String :=
  match o.result with
  | .ok r => some r.source
  | .error _ => none

/-- One persisted row of `asset_predictions` for the asset at hand, as read
by the prediction cache queries. -/
structure PredRow where
  predictionDate : Nat
  predictedClose : Rat
  modelVersion : String
  horizon : String
  fetchedAt : Nat
deriving Repr, DecidableEq

/-- One `{date, predicted_close}` element of a prediction response. -/
structure PredPoint where
  date : Nat
  predictedClose : Rat
deriving Repr, DecidableEq

/-- The response object returned by `getAssetPrediction`; `cachedAt = none`
stands for the `new Date().toISOString()` branch. -/
structure PredResponse where
  symbol : String
  assetId : Nat
  horizon : String
  predictions : List PredPoint
  source : String
  cachedAt : Option Nat
  ttl : Nat
  modelVersion : String
  warning : Option String
deriving Repr, DecidableEq

/-- A well-formed result of the ML adapter (`chronosService.getPrediction`);
the adapter itself returns `null` on any failure, embedded as `Option`. -/
structure MlResult where
  predictions : List PredPoint
  modelVersion : String
deriving Repr, DecidableEq

/-- Outcome of one prediction orchestration call: the settled result
(`none` embeds the returned `null`), the argument tuple of the history
pipeline call when one was made, the number of ML-adapter invocations, and
the number of stale-cache fallback queries. -/
structure PredOutcome where
  result : Option PredResponse
  histCall : Option (String × Nat × String × Nat)
  mlCalls : Nat
  staleQueries : Nat
deriving Repr, DecidableEq

/-- `parseHorizon(horizon)` from predictionService: map lookup with
default 6. -/
def parseHorizon (horizon : String) : Nat :=
  if horizon = "3m" then 3
  else if horizon = "6m" then 6
  else if horizon = "1y" then 12
  else if horizon = "2y" then 24
  else if horizon = "5y" then 60
  else 6

/-- `getCacheKey(assetId, horizon)` from predictionService: the template
literal `assetId:horizon`. -/
def predCacheKey (assetId : Nat) (horizon : String) : String :=
  Nat.repr assetId ++ ":" ++ horizon

/-- The rows produced by the TTL-filtered prediction cache query
(`prediction_horizon = $2 AND fetched_at > NOW() - INTERVAL '1 second' * $3`,
ordered by prediction date). -/
def predFreshRows (predDb : List PredRow) (horizon : String) (ttl now : Nat) :
    List PredRow :=
  sortAsc (fun r => r.predictionDate)
    (predDb.filter fun r =>
      decide (r.horizon = horizon) && decide (now < r.fetchedAt + ttl))

/-- The rows produced by the stale prediction query (horizon filter only). -/
def predStaleRows (predDb : List PredRow) (horizon : String) : List PredRow :=
  sortAsc (fun r => r.predictionDate)
    (predDb.filter fun r => decide (r.horizon = horizon))

/-- `tryStaleCache(assetId, symbol, horizon)` from predictionService; the
human-readable warning interpolates the cache age in the source and is
embedded by a fixed representative text. -/
def tryStaleCache (assetId : Nat) (symbol : String) (horizon : String)
    (predDb : List PredRow) : Option PredResponse :=
  match predStaleRows predDb horizon with
  | [] => none
  | r0 :: rest =>
    some { symbol := symbol, assetId := assetId, horizon := horizon
           predictions := (r0 :: rest).map fun r =>
             { date := r.predictionDate, predictedClose := r.predictedClose }
           source := "stale_cache", cachedAt := some r0.fetchedAt, ttl := 0
           modelVersion := r0.modelVersion
           warning := some "Predictions may be outdated. ML service temporarily unavailable." }

/-- `fetchPredictionInternal(assetId, symbol, horizon, ttl)` from
predictionService.  `histOracle` stands for the history pipeline
(`getAssetHistory`) and `mlOracle` for the outcome of
`chronosService.getPrediction` (`none` embeds both a thrown error and an
invalid/`null` result, the two cases the source treats alike); the
`storePredictions` write is absorbed into the store and does not affect the
response. -/
def fetchPredictionInternal (assetId : Nat) (symbol : String)
    (horizon : String) (ttl now : Nat) (predDb : List PredRow)
    (histOracle : String → Nat → String → Nat → Except FetchErr HistoryResponse)
    (mlOracle : Option MlResult) : PredOutcome :=
  match predFreshRows predDb horizon ttl now with
  | r0 :: rest =>
    let resp : PredResponse :=
      { symbol := symbol, assetId := assetId, horizon := horizon
        predictions := (r0 :: rest).map fun r =>
          { date := r.predictionDate, predictedClose := r.predictedClose }
        source := "cache", cachedAt := some r0.fetchedAt, ttl := ttl
        modelVersion := r0.modelVersion, warning := none }
    { result := some resp, histCall := none, mlCalls := 0, staleQueries := 0 }
  | [] =>
    let historyMonths := max 24 (parseHorizon horizon * 2)
    match histOracle symbol historyMonths "1mo" 3600 with
    | .error _ =>
      { result := tryStaleCache assetId symbol horizon predDb
        histCall := some (symbol, historyMonths, "1mo", 3600)
        mlCalls := 0, staleQueries := 1 }
    | .ok historicalData =>
      if historicalData.series.length < 6 then
        { result := none
          histCall := some (symbol, historyMonths, "1mo", 3600)
          mlCalls := 0, staleQueries := 0 }
      else
        match mlOracle with
        | none =>
          { result := tryStaleCache assetId symbol horizon predDb
            histCall := some (symbol, historyMonths, "1mo", 3600)
            mlCalls := 1, staleQueries := 1 }
        | some mlResult =>
          let resp : PredResponse :=
            { symbol := symbol, assetId := assetId, horizon := horizon
              predictions := mlResult.predictions, source := "ml_service"
              cachedAt := none, ttl := ttl
              modelVersion := mlResult.modelVersion, warning := none }
          { result := some resp
            histCall := some (symbol, historyMonths, "1mo", 3600)
            mlCalls := 1, staleQueries := 0 }

/-- `getAssetPrediction` as one caller observes it (the in-flight registry
is modelled separately as a trace relation). -/
def getAssetPrediction (assetId : Nat) (symbol : String) (horizon : String)
    (ttl now : Nat) (predDb : List PredRow)
    (histOracle : String → Nat → String → Nat → Except FetchErr HistoryResponse)
    (mlOracle : Option MlResult) : PredOutcome :=
  fetchPredictionInternal assetId symbol horizon ttl now predDb histOracle
    mlOracle

/-- Valid ranges accepted by the market controller. -/
def validRanges : List String := ["6m", "12m", "24m", "60m"]

/-- Valid intervals accepted by the market controller. -/
def validIntervals : List String := ["1d", "1wk", "1mo"]

/-- `rangeToMonths` map of the controller (total function; only consulted
after the range passed validation). -/
def rangeToMonths (range : String) : Nat :=
  if range = "6m" then 6
  else if range = "12m" then 12
  else if range = "24m" then 24
  else if range = "60m" then 60
  else 0

/-- `intervalToTTL` map of the controller. -/
def intervalToTTL (interval : String) : Nat :=
  if interval = "1mo" then 3600
  else if interval = "1wk" then 1800
  else if interval = "1d" then 900
  else 0

/-- Observable outcome of one controller invocation: HTTP status, body on
success, and how many times the service layer (which performs every catalog
write, cache query and upstream call) was invoked. -/
structure CtrlOutcome where
  status : Nat
  body : Option HistoryResponse
  serviceCalls : Nat
deriving Repr, DecidableEq

/-- The `getAssetHistory` controller of marketController: parameter
validation, range/interval translation, service call, error mapping.
`svc` stands for the service-layer `getAssetHistory(symbol, months,
interval, ttl)`. -/
def marketGetAssetHistory (symbol range interval : String)
    (svc : String → Nat → String → Nat → Except FetchErr HistoryResponse) :
    CtrlOutcome :=
  if symbol = "" then { status := 400, body := none, serviceCalls := 0 }
  else if !(validRanges.contains range) then
    { status := 400, body := none, serviceCalls := 0 }
  else if !(validIntervals.contains interval) then
    { status := 400, body := none, serviceCalls := 0 }
  else if interval = "1d" ∧ range ≠ "6m" then
    { status := 400, body := none, serviceCalls := 0 }
  else
    match svc symbol (rangeToMonths range) interval (intervalToTTL interval) with
    | .ok r => { status := 200, body := some r, serviceCalls := 1 }
    | .error .symbolNotFound => { status := 404, body := none, serviceCalls := 1 }
    | .error .serviceUnavailable => { status := 503, body := none, serviceCalls := 1 }
    | .error (.storeFailure _) => { status := 500, body := none, serviceCalls := 1 }

/-- How a registered in-flight computation settled: resolved with a value,
resolved with `null`, or rejected with an exception. -/
inductive CompOutcome where
  | value
  | nullResult
  | exn
deriving Repr, DecidableEq

/-- State of one in-flight registry (`inflightRequests` map) together with
bookkeeping for the computations it spawned: `inflight` maps cache keys to
pending computation ids, `nextId` is the next fresh id, `started` the ids
of computations registered so far, `callerComp` associates each caller with
the computation whose settled outcome it receives. -/
structure RegState where
  inflight : List (String × Nat)
  nextId : Nat
  started : List Nat
  callerComp : List (Nat × Nat)
deriving Repr, DecidableEq

/-- Events of the registry trace: `arrive` is the synchronous prologue of
`getAssetHistory`/`getAssetPrediction` (the `has`-check and the `set`,
between which the source contains no suspension point), and `complete` is
the settling of the promise registered under a key, whose `finally` runs
the unconditional `delete`. -/
inductive RegEvent where
  | arrive (caller : Nat) (key : String)
  | complete (key : String) (outcome : CompOutcome)
deriving Repr, DecidableEq

/-- `inflightRequests.get`/`has` on the model map. -/
def lookupKey (l : List (String × Nat)) (k : String) : Option Nat :=
  match l.find? (fun e => e.1 == k) with
  | some e => some e.2
  | none => none

/-- One atomic step of the registry.  An arriving caller joins the pending
computation for its key if one exists, otherwise registers a fresh
computation; a completion deletes the entry for its key regardless of the
outcome. -/
def regStep (s : RegState) : RegEvent → RegState
  | .arrive c k =>
    match lookupKey s.inflight k with
    | some id => { s with callerComp := (c, id) :: s.callerComp }
    | none =>
      { inflight := (k, s.nextId) :: s.inflight
        nextId := s.nextId + 1
        started := s.started ++ [s.nextId]
        callerComp := (c, s.nextId) :: s.callerComp }
  | .complete k _ =>
    { s with inflight := s.inflight.filter (fun e => !(e.1 == k)) }

/-- Run a trace of registry events. -/
def regRun (s : RegState) (evs : List RegEvent) : RegState :=
  evs.foldl regStep s

/-- The registry at process start: empty map, no computations. -/
def emptyReg : RegState :=
  { inflight := [], nextId := 0, started := [], callerComp := [] }

/-- A sample persisted row used by concrete instances. -/
def sampleRow (m fetched : Nat) (c : Rat) : DbRow :=
  { month := m, openP := 1, highP := 3, lowP := 1, closeP := c
    volume := some 5, currency := "USD", fetchedAt := fetched }

lemma lastClose_last {s : List SeriesPoint} {p : SeriesPoint}
    (h : s.getLast? = some p) :
    lastClose s = if p.closeP = 0 then none else some p.closeP := by
  unfold lastClose
  rw [h]

lemma formatResponse_series (asset : Asset) (rows : List DbRow) (months : Nat)
    (interval source : String) (ttl : Nat) (warning : Option String) :
    (formatResponse asset rows months interval source ttl warning).series =
      sortAsc (fun p => p.timestamp) (rows.map toSeriesPoint) := rfl

lemma formatResponse_currentPrice (asset : Asset) (rows : List DbRow)
    (months : Nat) (interval source : String) (ttl : Nat)
    (warning : Option String) :
    (formatResponse asset rows months interval source ttl warning).currentPrice =
      lastClose ((formatResponse asset rows months interval source ttl warning).series) := rfl

lemma fetch_hit (symbol : String) (months : Nat) (interval : String)
    (ttl now startP : Nat) (db : List DbRow)
    (ar : Except String (List YPoint))
    (h : histCacheHit db startP ttl now months interval = true) :
    fetchAssetHistoryInternal symbol months interval ttl now startP db ar =
      { result := .ok (formatResponse (mkAsset (strUpper symbol))
          (freshRows db startP ttl now) months interval "cache" ttl none)
        adapterCalls := 0, dbAfter := db } := by
  simp [fetchAssetHistoryInternal, h]

lemma fetch_miss_adapterCalls (symbol : String) (months : Nat)
    (interval : String) (ttl now startP : Nat) (db : List DbRow)
    (ar : Except String (List YPoint))
    (h : histCacheHit db startP ttl now months interval = false) :
    (fetchAssetHistoryInternal symbol months interval ttl now startP db ar).adapterCalls = 1 := by
  unfold fetchAssetHistoryInternal
  rw [h]
  simp only [Bool.false_eq_true, if_false]
  cases ar with
  | error msg =>
    by_cases hs : (staleRows db startP).isEmpty <;> simp [hs]
  | ok pts =>
    by_cases hp : pts.isEmpty
    · simp [hp]
    · simp only [hp, if_false]
      cases upsertLoop now pts db with
      | error e => rfl
      | ok res => rfl

lemma fetch_adapter_error_stale (symbol : String) (months : Nat)
    (interval : String) (ttl now startP : Nat) (db : List DbRow) (msg : String)
    (hmiss : histCacheHit db startP ttl now months interval = false)
    (hstale : staleRows db startP ≠ []) :
    fetchAssetHistoryInternal symbol months interval ttl now startP db (.error msg) =
      { result := .ok (formatResponse (mkAsset (strUpper symbol))
          (staleRows db startP) months interval "stale_cache" ttl
          (some "Data may be outdated due to external service unavailability"))
        adapterCalls := 1, dbAfter := db } := by
  have h2 : (staleRows db startP).isEmpty = false := by
    simpa [List.isEmpty_iff] using hstale
  simp [fetchAssetHistoryInternal, hmiss, h2]

lemma fetch_adapter_error_nostale (symbol : String) (months : Nat)
    (interval : String) (ttl now startP : Nat) (db : List DbRow) (msg : String)
    (hmiss : histCacheHit db startP ttl now months interval = false)
    (hstale : staleRows db startP = []) :
    fetchAssetHistoryInternal symbol months interval ttl now startP db (.error msg) =
      { result := .error .serviceUnavailable, adapterCalls := 1
        dbAfter := db } := by
  have h2 : (staleRows db startP).isEmpty = true := by
    simp [List.isEmpty_iff, hstale]
  simp [fetchAssetHistoryInternal, hmiss, h2]

lemma expectedPoints_weekly_floor (months : Nat) :
    calculateExpectedPoints months "1wk" = Nat.floor ((months : ℚ) * 4.3) := by
  have h : (months : ℚ) * 4.3 = ((43 * months : ℕ) : ℚ) / ((10 : ℕ) : ℚ) := by
    push_cast
    ring
  rw [h, Nat.floor_div_nat, Nat.floor_natCast]
  simp [calculateExpectedPoints, Nat.mul_comm]

lemma hasSufficientData_iff (count expected : Nat) :
    hasSufficientData count expected = true ↔
      (expected : ℚ) * (8 / 10) ≤ (count : ℚ) := by
  unfold hasSufficientData
  rw [decide_eq_true_iff]
  have h10 : (0 : ℚ) < 10 := by norm_num
  constructor
  · intro h
    rw [← mul_div_assoc, div_le_iff₀ h10]
    exact_mod_cast h
  · intro h
    rw [← mul_div_assoc, div_le_iff₀ h10] at h
    exact_mod_cast h

lemma histCacheHit_iff (months ttl now startP : Nat) (interval : String)
    (db : List DbRow) :
    histCacheHit db startP ttl now months interval = true ↔
      ((calculateExpectedPoints months interval : ℚ) * (8 / 10) ≤
          ((freshRows db startP ttl now).length : ℚ) ∧
        freshRows db startP ttl now ≠ []) := by
  simp [histCacheHit, hasSufficientData_iff, List.isEmpty_iff]

/-- C3: for a history request the expected point count is `months * 21` for
daily, `floor(months * 4.3)` for weekly and `months` for monthly
granularity; the orchestrator answers from cache — persisted rows tagged
`source = cache` and no adapter call — exactly when the count of fresh
persisted points reaches 80 percent of the expected count and at least one
fresh point exists, and any miss invokes the adapter; in particular with 24
expected points, 20 fresh points is a hit and 18 fresh points is a miss
that calls the adapter. -/
theorem c3_freshness_boundary :
    (∀ months : Nat,
      calculateExpectedPoints months "1d" = months * 21 ∧
      calculateExpectedPoints months "1wk" = Nat.floor ((months : ℚ) * 4.3) ∧
      calculateExpectedPoints months "1mo" = months) ∧
    (∀ (symbol interval : String) (months ttl now startP : Nat)
       (db : List DbRow) (ar : Except String (List YPoint)),
      (histCacheHit db startP ttl now months interval = true ↔
        ((calculateExpectedPoints months interval : ℚ) * (8 / 10) ≤
            ((freshRows db startP ttl now).length : ℚ) ∧
          freshRows db startP ttl now ≠ [])) ∧
      (histCacheHit db startP ttl now months interval = true →
        fetchAssetHistoryInternal symbol months interval ttl now startP db ar =
          { result := .ok (formatResponse (mkAsset (strUpper symbol))
              (freshRows db startP ttl now) months interval "cache" ttl none)
            adapterCalls := 0, dbAfter := db }) ∧
      (histCacheHit db startP ttl now months interval = false →
        (fetchAssetHistoryInternal symbol months interval ttl now startP db ar).adapterCalls = 1)) ∧
    (∀ (interval : String) (months ttl now startP : Nat) (db : List DbRow),
      calculateExpectedPoints months interval = 24 →
      ((freshRows db startP ttl now).length = 20 →
        histCacheHit db startP ttl now months interval = true) ∧
      ((freshRows db startP ttl now).length = 18 →
        histCacheHit db startP ttl now months interval = false)) := by
  refine ⟨?_, ?_, ?_⟩
  · intro months
    exact ⟨by simp [calculateExpectedPoints],
      expectedPoints_weekly_floor months,
      by simp [calculateExpectedPoints]⟩
  · intro symbol interval months ttl now startP db ar
    exact ⟨histCacheHit_iff months ttl now startP interval db,
      fetch_hit symbol months interval ttl now startP db ar,
      fetch_miss_adapterCalls symbol months interval ttl now startP db ar⟩
  · intro interval months ttl now startP db hexp
    constructor
    · intro h20
      rw [histCacheHit_iff, hexp, h20]
      refine ⟨by norm_num, ?_⟩
      intro hnil
      rw [hnil] at h20
      simp at h20
    · intro h18
      rw [Bool.eq_false_iff]
      intro hhit
      rw [histCacheHit_iff, hexp, h18] at hhit
      have := hhit.1
      norm_num at this

/-- C3 witness: a concrete 24-month monthly request where 20 fresh rows are
a hit and 18 fresh rows are a miss. -/
theorem c3_freshness_boundary_witness :
    calculateExpectedPoints 24 "1mo" = 24 ∧
    histCacheHit ((List.range 20).map (fun i => sampleRow i 100 2)) 0 3600 200 24 "1mo" = true ∧
    histCacheHit ((List.range 18).map (fun i => sampleRow i 100 2)) 0 3600 200 24 "1mo" = false := by
  refine ⟨rfl, ?_, ?_⟩
  · exact (c3_freshness_boundary.2.2 "1mo" 24 3600 200 0
      ((List.range 20).map (fun i => sampleRow i 100 2)) rfl).1 (by decide)
  · exact (c3_freshness_boundary.2.2 "1mo" 24 3600 200 0
      ((List.range 18).map (fun i => sampleRow i 100 2)) rfl).2 (by decide)

/-- C9: the market controller rejects `interval = 1d` with any range other
than `6m` with a 400 validation error before the service layer (catalog
write, cache query, upstream call) is touched; `1d` with `6m` is accepted,
and `1wk`/`1mo` are accepted for every supported range. -/
theorem c9_daily_range_guard (symbol range : String)
    (svc : String → Nat → String → Nat → Except FetchErr HistoryResponse)
    (hs : symbol ≠ "") :
    (range ≠ "6m" →
      marketGetAssetHistory symbol range "1d" svc =
        { status := 400, body := none, serviceCalls := 0 }) ∧
    ((marketGetAssetHistory symbol "6m" "1d" svc).serviceCalls = 1) ∧
    (range ∈ validRanges → ∀ interval : String,
      interval = "1wk" ∨ interval = "1mo" →
      (marketGetAssetHistory symbol range interval svc).serviceCalls = 1) := by
  refine ⟨?_, ?_, ?_⟩
  · intro hr6
    by_cases hr : validRanges.contains range
    · simp [marketGetAssetHistory, hs, hr, hr6, validIntervals]
    · simp [marketGetAssetHistory, hs, hr, hr6]
  · have hd : ¬(("1d" : String) = "1d" ∧ ("6m" : String) ≠ "6m") := by simp
    simp only [marketGetAssetHistory, hs, if_neg, hd]
    simp only [show (validRanges.contains "6m" = true) from by decide,
      show (validIntervals.contains "1d" = true) from by decide]
    simp only [Bool.not_true, Bool.false_eq_true, if_false, if_neg hd]
    cases hsvc : svc symbol (rangeToMonths "6m") "1d" (intervalToTTL "1d") with
    | ok r => simp [hs, hsvc]
    | error e => cases e <;> simp [hs, hsvc]
  · intro hr interval hi
    have hrc : validRanges.contains range = true := by
      simpa using hr
    have hic : validIntervals.contains interval = true := by
      rcases hi with h | h <;> simp [h, validIntervals]
    have hd : ¬(interval = "1d" ∧ range ≠ "6m") := by
      rcases hi with h | h <;> simp [h]
    simp only [marketGetAssetHistory, hs, hrc, hic, Bool.not_true,
      Bool.false_eq_true, if_false, if_neg hd]
    cases hsvc : svc symbol (rangeToMonths range) interval (intervalToTTL interval) with
    | ok r => simp [hs, hsvc]
    | error e => cases e <;> simp [hs, hsvc]

/-- C9 witness: concrete controller calls — `1d` with `12m` rejected with
400 and no service call, `1d` with `6m` and `1mo` with `24m` accepted. -/
theorem c9_daily_range_guard_witness :
    (marketGetAssetHistory "AAPL" "12m" "1d" (fun _ _ _ _ => .error .serviceUnavailable) =
      { status := 400, body := none, serviceCalls := 0 }) ∧
    (marketGetAssetHistory "AAPL" "6m" "1d" (fun _ _ _ _ => .error .serviceUnavailable)).serviceCalls = 1 ∧
    (marketGetAssetHistory "AAPL" "24m" "1mo" (fun _ _ _ _ => .error .serviceUnavailable)).serviceCalls = 1 := by
  refine ⟨?_, ?_, ?_⟩
  · exact (c9_daily_range_guard "AAPL" "12m" _ (by decide)).1 (by decide)
  · exact (c9_daily_range_guard "AAPL" "6m" _ (by decide)).2.1
  · exact (c9_daily_range_guard "AAPL" "24m" _ (by decide)).2.2 (by decide)
      "1mo" (Or.inr rfl)

/-- C10: in every history response the current price is the close of the
chronologically last series point when that close is nonzero, and `null`
both when the series is empty and when the last close equals zero. -/
theorem c10_current_price_zero_coercion (asset : Asset) (rows : List DbRow)
    (months : Nat) (interval source : String) (ttl : Nat)
    (warning : Option String) :
    ((formatResponse asset rows months interval source ttl warning).series = [] →
      (formatResponse asset rows months interval source ttl warning).currentPrice = none) ∧
    (∀ p : SeriesPoint,
      (formatResponse asset rows months interval source ttl warning).series.getLast? = some p →
      ((p.closeP = 0 →
        (formatResponse asset rows months interval source ttl warning).currentPrice = none) ∧
       (p.closeP ≠ 0 →
        (formatResponse asset rows months interval source ttl warning).currentPrice = some p.closeP))) := by
  constructor
  · intro hnil
    rw [formatResponse_currentPrice, hnil]
    rfl
  · intro p hp
    rw [formatResponse_currentPrice, lastClose_last hp]
    constructor
    · intro h0
      simp [h0]
    · intro h0
      simp [h0]

/-- C10 witness: a last close of `0` is reported as `null`, a last close of
`2` is reported as `2`, and an empty series yields `null`. -/
theorem c10_current_price_zero_coercion_witness :
    (formatResponse (mkAsset "AAPL") [sampleRow 5 100 0] 24 "1mo" "cache" 3600 none).currentPrice = none ∧
    (formatResponse (mkAsset "AAPL") [sampleRow 5 100 2] 24 "1mo" "cache" 3600 none).currentPrice = some 2 ∧
    (formatResponse (mkAsset "AAPL") [] 24 "1mo" "cache" 3600 none).currentPrice = none := by
  refine ⟨?_, ?_, ?_⟩
  · exact ((c10_current_price_zero_coercion (mkAsset "AAPL") [sampleRow 5 100 0]
      24 "1mo" "cache" 3600 none).2 (toSeriesPoint (sampleRow 5 100 0)) rfl).1 rfl
  · exact ((c10_current_price_zero_coercion (mkAsset "AAPL") [sampleRow 5 100 2]
      24 "1mo" "cache" 3600 none).2 (toSeriesPoint (sampleRow 5 100 2)) rfl).2 (by decide)
  · exact (c10_current_price_zero_coercion (mkAsset "AAPL") [] 24 "1mo" "cache"
      3600 none).1 rfl

lemma str_data_append (a b : String) : (a ++ b).data = a.data ++ b.data := by
  cases a
  cases b
  rfl

lemma str_eq_of_data_eq {a b : String} (h : a.data = b.data) : a = b := by
  cases a
  cases b
  exact congrArg String.mk h

lemma colon_split {u v u2 v2 : List Char} (hu : ':' ∉ u) (hu2 : ':' ∉ u2)
    (h : u ++ ':' :: v = u2 ++ ':' :: v2) : u = u2 ∧ v = v2 := by
  induction u generalizing u2 with
  | nil =>
    cases u2 with
    | nil => simpa using h
    | cons b t =>
      exfalso
      simp only [List.nil_append, List.cons_append, List.cons.injEq] at h
      exact hu2 (by simp [← h.1])
  | cons a t ih =>
    cases u2 with
    | nil =>
      exfalso
      simp only [List.nil_append, List.cons_append, List.cons.injEq] at h
      exact hu (by simp [h.1])
    | cons b t2 =>
      simp only [List.cons_append, List.cons.injEq] at h
      have ht : t = t2 ∧ v = v2 :=
        ih (fun hm => hu (List.mem_cons_of_mem _ hm))
          (fun hm => hu2 (List.mem_cons_of_mem _ hm)) h.2
      exact ⟨by rw [h.1, ht.1], ht.2⟩

lemma digitChar_ge16 (n : Nat) (h : 16 ≤ n) : Nat.digitChar n = '*' := by
  unfold Nat.digitChar
  repeat rw [if_neg (by omega)]

lemma digitChar_ne_colon (n : Nat) : Nat.digitChar n ≠ ':' := by
  by_cases h : n < 16
  · interval_cases n <;> decide
  · rw [digitChar_ge16 n (by omega)]
    decide

lemma digitChar_inj_lt :
    ∀ a < 16, ∀ b < 16, Nat.digitChar a = Nat.digitChar b → a = b := by
  decide

lemma toDigitsCore_eq_digits :
    ∀ (f n : Nat) (ds : List Char), 0 < n → n < f →
      Nat.toDigitsCore 10 f n ds =
        ((Nat.digits 10 n).map Nat.digitChar).reverse ++ ds := by
  intro f
  induction f with
  | zero => intro n ds hn hf; omega
  | succ f ih =>
    intro n ds hn hf
    rw [Nat.digits_def' (by norm_num : (1 : ℕ) < 10) hn]
    by_cases h10 : n / 10 = 0
    · have hlt : n < 10 := by
        have hdm := Nat.div_add_mod n 10
        have hmod : n % 10 < 10 := Nat.mod_lt _ (by norm_num)
        omega
      simp [Nat.toDigitsCore, h10, Nat.mod_eq_of_lt hlt]
    · have hpos : 0 < n / 10 := Nat.pos_of_ne_zero h10
      have hless : n / 10 < f := by
        have := Nat.div_lt_self hn (by norm_num : (1 : ℕ) < 10)
        omega
      simp only [Nat.toDigitsCore, h10, if_false]
      rw [ih (n / 10) (Nat.digitChar (n % 10) :: ds) hpos hless]
      simp

lemma natRepr_data (n : Nat) : (Nat.repr n).data = Nat.toDigits 10 n := rfl

lemma natRepr_data_pos (n : Nat) (h : 0 < n) :
    (Nat.repr n).data = ((Nat.digits 10 n).map Nat.digitChar).reverse := by
  rw [natRepr_data]
  unfold Nat.toDigits
  rw [toDigitsCore_eq_digits (n + 1) n [] h (by omega)]
  simp

lemma natRepr_no_colon (n : Nat) : ':' ∉ (Nat.repr n).data := by
  rcases Nat.eq_zero_or_pos n with h | h
  · subst h
    intro hm
    have hc : ':' = Nat.digitChar 0 := by
      simpa [natRepr_data, Nat.toDigits, Nat.toDigitsCore] using hm
    exact digitChar_ne_colon 0 hc.symm
  · rw [natRepr_data_pos n h]
    intro hm
    rw [List.mem_reverse] at hm
    obtain ⟨d, _, hd⟩ := List.mem_map.mp hm
    exact digitChar_ne_colon d hd

lemma map_digitChar_inj :
    ∀ (l1 l2 : List Nat), (∀ x ∈ l1, x < 16) → (∀ x ∈ l2, x < 16) →
      l1.map Nat.digitChar = l2.map Nat.digitChar → l1 = l2 := by
  intro l1
  induction l1 with
  | nil =>
    intro l2 _ _ h
    cases l2 with
    | nil => rfl
    | cons b t => simp at h
  | cons a t ih =>
    intro l2 h1 h2 h
    cases l2 with
    | nil => simp at h
    | cons b t2 =>
      simp only [List.map_cons, List.cons.injEq] at h
      have ha : a = b :=
        digitChar_inj_lt a (h1 a (by simp)) b (h2 b (by simp)) h.1
      have ht : t = t2 :=
        ih t2 (fun x hx => h1 x (by simp [hx])) (fun x hx => h2 x (by simp [hx])) h.2
      rw [ha, ht]

lemma natRepr_inj {m n : Nat} (h : (Nat.repr m).data = (Nat.repr n).data) :
    m = n := by
  have hz : ∀ k : Nat, 0 < k →
      (Nat.repr k).data = ((Nat.digits 10 k).map Nat.digitChar).reverse :=
    fun k hk => natRepr_data_pos k hk
  rcases Nat.eq_zero_or_pos m with hm | hm <;>
    rcases Nat.eq_zero_or_pos n with hn | hn
  · omega
  · exfalso
    subst hm
    rw [hz n hn] at h
    have h0 : (['0'] : List Char) = ((Nat.digits 10 n).map Nat.digitChar).reverse := h
    have hlen : (Nat.digits 10 n).length = 1 := by
      have := congrArg List.length h0
      simpa using this.symm
    obtain ⟨d, hd⟩ := List.length_eq_one.mp hlen
    rw [hd] at h0
    simp at h0
    have hdlt : d < 10 :=
      Nat.digits_lt_base (by norm_num) (by rw [hd]; simp)
    have hd0 : d = 0 :=
      digitChar_inj_lt d (by omega) 0 (by norm_num) (by simpa using h0.symm)
    have : n = Nat.ofDigits 10 (Nat.digits 10 n) := (Nat.ofDigits_digits 10 n).symm
    rw [hd, hd0] at this
    simp [Nat.ofDigits] at this
    omega
  · exfalso
    subst hn
    rw [hz m hm] at h
    have h0 : ((Nat.digits 10 m).map Nat.digitChar).reverse = (['0'] : List Char) := h
    have hlen : (Nat.digits 10 m).length = 1 := by
      have := congrArg List.length h0
      simpa using this
    obtain ⟨d, hd⟩ := List.length_eq_one.mp hlen
    rw [hd] at h0
    simp at h0
    have hdlt : d < 10 :=
      Nat.digits_lt_base (by norm_num) (by rw [hd]; simp)
    have hd0 : d = 0 :=
      digitChar_inj_lt d (by omega) 0 (by norm_num) (by simpa using h0)
    have : m = Nat.ofDigits 10 (Nat.digits 10 m) := (Nat.ofDigits_digits 10 m).symm
    rw [hd, hd0] at this
    simp [Nat.ofDigits] at this
    omega
  · rw [hz m hm, hz n hn] at h
    have hmap : (Nat.digits 10 m).map Nat.digitChar =
        (Nat.digits 10 n).map Nat.digitChar := by
      have := congrArg List.reverse h
      simpa using this
    have hdig : Nat.digits 10 m = Nat.digits 10 n :=
      map_digitChar_inj _ _
        (fun x hx => by
          have hxb : x < 10 := Nat.digits_lt_base (by norm_num) hx
          omega)
        (fun x hx => by
          have hxb : x < 10 := Nat.digits_lt_base (by norm_num) hx
          omega)
        hmap
    calc m = Nat.ofDigits 10 (Nat.digits 10 m) := (Nat.ofDigits_digits 10 m).symm
    _ = Nat.ofDigits 10 (Nat.digits 10 n) := by rw [hdig]
    _ = n := Nat.ofDigits_digits 10 n

lemma getCacheKey_data (s : String) (m : Nat) (i : String) :
    (getCacheKey s m i).data =
      (strUpper s).data ++ ':' :: ((Nat.repr m).data ++ ':' :: i.data) := by
  show (strUpper s ++ ":" ++ Nat.repr m ++ ":" ++ i).data = _
  rw [str_data_append, str_data_append, str_data_append, str_data_append]
  simp

lemma predCacheKey_data (assetId : Nat) (horizon : String) :
    (predCacheKey assetId horizon).data =
      (Nat.repr assetId).data ++ ':' :: horizon.data := by
  show (Nat.repr assetId ++ ":" ++ horizon).data = _
  rw [str_data_append, str_data_append]
  simp

lemma interval_data_no_colon {i : String} (h : i ∈ validIntervals) :
    ':' ∉ i.data := by
  simp only [validIntervals, List.mem_cons, List.not_mem_nil, or_false] at h
  rcases h with h | h | h <;> subst h <;> decide

lemma getCacheKey_inj {s1 s2 : String} {m1 m2 : Nat} {i1 i2 : String}
    (hi1 : i1 ∈ validIntervals) (hi2 : i2 ∈ validIntervals)
    (h : getCacheKey s1 m1 i1 = getCacheKey s2 m2 i2) :
    strUpper s1 = strUpper s2 ∧ m1 = m2 ∧ i1 = i2 := by
  have hd := congrArg String.data h
  rw [getCacheKey_data, getCacheKey_data] at hd
  have hrev := congrArg List.reverse hd
  simp only [List.reverse_append, List.reverse_cons, List.append_assoc,
    List.nil_append, List.singleton_append] at hrev
  have step1 := colon_split
    (by simpa using interval_data_no_colon hi1)
    (by simpa using interval_data_no_colon hi2) hrev
  have hi : i1 = i2 := by
    apply str_eq_of_data_eq
    have := congrArg List.reverse step1.1
    simpa using this
  have step2 := colon_split
    (by simpa using natRepr_no_colon m1)
    (by simpa using natRepr_no_colon m2) step1.2
  have hm : m1 = m2 := by
    apply natRepr_inj
    have := congrArg List.reverse step2.1
    simpa using this
  have hs : strUpper s1 = strUpper s2 := by
    apply str_eq_of_data_eq
    have := congrArg List.reverse step2.2
    simpa using this
  exact ⟨hs, hm, hi⟩

lemma predCacheKey_inj {a1 a2 : Nat} {h1 h2 : String}
    (h : predCacheKey a1 h1 = predCacheKey a2 h2) : a1 = a2 ∧ h1 = h2 := by
  have hd := congrArg String.data h
  rw [predCacheKey_data, predCacheKey_data] at hd
  have step := colon_split (natRepr_no_colon a1) (natRepr_no_colon a2) hd
  exact ⟨natRepr_inj step.1, str_eq_of_data_eq step.2⟩

lemma lookupKey_cons (e : String × Nat) (t : List (String × Nat)) (k : String) :
    lookupKey (e :: t) k = if e.1 == k then some e.2 else lookupKey t k := by
  by_cases h : (e.1 == k) = true
  · simp [lookupKey, List.find?_cons_of_pos, h]
  · rw [if_neg (by simpa using h)]
    simp only [lookupKey]
    rw [List.find?_cons_of_neg]
    simpa using h

lemma lookupKey_filter_ne (l : List (String × Nat)) (k : String) :
    lookupKey (l.filter fun e => !(e.1 == k)) k = none := by
  induction l with
  | nil => rfl
  | cons e t ih =>
    by_cases h : (e.1 == k) = true
    · simpa [List.filter, h] using ih
    · rw [List.filter]
      simp only [h, Bool.not_false]
      rw [lookupKey_cons, if_neg (by simpa using h)]
      exact ih

lemma regStep_register (s : RegState) (c : Nat) (k : String)
    (h : lookupKey s.inflight k = none) :
    regStep s (.arrive c k) =
      { inflight := (k, s.nextId) :: s.inflight
        nextId := s.nextId + 1
        started := s.started ++ [s.nextId]
        callerComp := (c, s.nextId) :: s.callerComp } := by
  simp [regStep, h]

lemma regStep_join (s : RegState) (c : Nat) (k : String) (id : Nat)
    (h : lookupKey s.inflight k = some id) :
    regStep s (.arrive c k) =
      { s with callerComp := (c, id) :: s.callerComp } := by
  simp [regStep, h]

lemma regRun_join_same_key (k : String) (id : Nat) :
    ∀ (cs : List Nat) (s : RegState), lookupKey s.inflight k = some id →
      (regRun s (cs.map fun c => .arrive c k)).inflight = s.inflight ∧
      (regRun s (cs.map fun c => .arrive c k)).nextId = s.nextId ∧
      (regRun s (cs.map fun c => .arrive c k)).started = s.started ∧
      (∀ x ∈ s.callerComp, x ∈ (regRun s (cs.map fun c => .arrive c k)).callerComp) ∧
      (∀ c ∈ cs, (c, id) ∈ (regRun s (cs.map fun c => .arrive c k)).callerComp) := by
  intro cs
  induction cs with
  | nil =>
    intro s h
    simp [regRun]
  | cons c0 rest ih =>
    intro s h
    have hstep := regStep_join s c0 k id h
    simp only [List.map_cons, regRun, List.foldl_cons] at *
    rw [hstep]
    obtain ⟨h1, h2, h3, h4, h5⟩ :=
      ih { s with callerComp := (c0, id) :: s.callerComp } (by simpa using h)
    refine ⟨h1, h2, h3, ?_, ?_⟩
    · intro x hx
      exact h4 x (List.mem_cons_of_mem _ hx)
    · intro c hc
      rcases List.mem_cons.mp hc with hceq | hcm
      · subst hceq
        exact h4 (c, id) (by simp)
      · exact h5 c hcm

lemma regRun_dedup (s : RegState) (k : String) (c0 : Nat) (cs : List Nat)
    (h : lookupKey s.inflight k = none) :
    (regRun s ((c0 :: cs).map fun c => .arrive c k)).started =
      s.started ++ [s.nextId] ∧
    (∀ c ∈ c0 :: cs,
      (c, s.nextId) ∈ (regRun s ((c0 :: cs).map fun c => .arrive c k)).callerComp) := by
  have hstep := regStep_register s c0 k h
  simp only [List.map_cons, regRun, List.foldl_cons]
  rw [hstep]
  have hlook : lookupKey ((k, s.nextId) :: s.inflight) k = some s.nextId := by
    rw [lookupKey_cons]
    simp
  obtain ⟨h1, h2, h3, h4, h5⟩ := regRun_join_same_key k s.nextId cs
    { inflight := (k, s.nextId) :: s.inflight
      nextId := s.nextId + 1
      started := s.started ++ [s.nextId]
      callerComp := (c0, s.nextId) :: s.callerComp } hlook
  refine ⟨h3, ?_⟩
  intro c hc
  rcases List.mem_cons.mp hc with hceq | hcm
  · subst hceq
    exact h4 (c, s.nextId) (by simp)
  · exact h5 c hcm

lemma regRun_two_keys (s : RegState) (k1 k2 : String) (c1 c2 : Nat)
    (hne : k1 ≠ k2) (h1 : lookupKey s.inflight k1 = none)
    (h2 : lookupKey s.inflight k2 = none) :
    (regRun s [.arrive c1 k1, .arrive c2 k2]).started =
      s.started ++ [s.nextId, s.nextId + 1] ∧
    (c1, s.nextId) ∈ (regRun s [.arrive c1 k1, .arrive c2 k2]).callerComp ∧
    (c2, s.nextId + 1) ∈ (regRun s [.arrive c1 k1, .arrive c2 k2]).callerComp := by
  have hstep1 := regStep_register s c1 k1 h1
  simp only [regRun, List.foldl_cons, List.foldl_nil]
  rw [hstep1]
  have h2b : lookupKey ((k1, s.nextId) :: s.inflight) k2 = none := by
    rw [lookupKey_cons, if_neg (by simpa using hne)]
    exact h2
  rw [regStep_register _ c2 k2 h2b]
  refine ⟨by simp, by simp, by simp⟩

/-- C1: when N concurrent callers (a nonempty arrival burst with no
interleaved completion) share one cache key that has no pending entry,
exactly one new computation is registered and every caller is associated
with that single computation, hence observes its one settled outcome; a
cache-missing computation invokes the upstream adapter exactly once; and
calls whose key components — uppercased symbol, months, interval for
history, assetId, horizon for predictions — differ map to different keys
and register independent computations. -/
theorem c1_concurrent_dedup :
    (∀ (s : RegState) (key : String) (c0 : Nat) (cs : List Nat),
      lookupKey s.inflight key = none →
      (regRun s ((c0 :: cs).map fun c => .arrive c key)).started =
        s.started ++ [s.nextId] ∧
      (∀ c ∈ c0 :: cs,
        (c, s.nextId) ∈
          (regRun s ((c0 :: cs).map fun c => .arrive c key)).callerComp)) ∧
    (∀ (symbol interval : String) (months ttl now startP : Nat)
       (db : List DbRow) (ar : Except String (List YPoint)),
      histCacheHit db startP ttl now months interval = false →
      (fetchAssetHistoryInternal symbol months interval ttl now startP db ar).adapterCalls = 1) ∧
    (∀ (s1 : String) (m1 : Nat) (i1 : String) (s2 : String) (m2 : Nat)
       (i2 : String), i1 ∈ validIntervals → i2 ∈ validIntervals →
      ¬(strUpper s1 = strUpper s2 ∧ m1 = m2 ∧ i1 = i2) →
      getCacheKey s1 m1 i1 ≠ getCacheKey s2 m2 i2) ∧
    (∀ (a1 : Nat) (h1 : String) (a2 : Nat) (h2 : String),
      ¬(a1 = a2 ∧ h1 = h2) → predCacheKey a1 h1 ≠ predCacheKey a2 h2) ∧
    (∀ (s : RegState) (k1 k2 : String) (c1 c2 : Nat),
      k1 ≠ k2 → lookupKey s.inflight k1 = none →
      lookupKey s.inflight k2 = none →
      (regRun s [.arrive c1 k1, .arrive c2 k2]).started =
        s.started ++ [s.nextId, s.nextId + 1] ∧
      (c1, s.nextId) ∈ (regRun s [.arrive c1 k1, .arrive c2 k2]).callerComp ∧
      (c2, s.nextId + 1) ∈ (regRun s [.arrive c1 k1, .arrive c2 k2]).callerComp) := by
  refine ⟨?_, ?_, ?_, ?_, ?_⟩
  · intro s key c0 cs h
    exact regRun_dedup s key c0 cs h
  · intro symbol interval months ttl now startP db ar h
    exact fetch_miss_adapterCalls symbol months interval ttl now startP db ar h
  · intro s1 m1 i1 s2 m2 i2 hi1 hi2 hne h
    exact hne (getCacheKey_inj hi1 hi2 h)
  · intro a1 h1 a2 h2 hne h
    exact hne (predCacheKey_inj h)
  · intro s k1 k2 c1 c2 hne h1 h2
    exact regRun_two_keys s k1 k2 c1 c2 hne h1 h2

/-- C1 witness: three concurrent callers on the key of
`(aapl, 24, 1mo)` from the empty registry spawn the single computation `0`
which all of them join, a concrete cache-missing fetch performs exactly one
adapter call, the keys of `(aapl, 24, 1mo)` and `(aapl, 12, 1mo)` differ,
and arrivals on two different keys spawn computations `0` and `1`. -/
theorem c1_concurrent_dedup_witness :
    (regRun emptyReg ([1, 2, 3].map fun c =>
      .arrive c (getCacheKey "aapl" 24 "1mo"))).started = [0] ∧
    ((2 : Nat), (0 : Nat)) ∈ (regRun emptyReg ([1, 2, 3].map fun c =>
      .arrive c (getCacheKey "aapl" 24 "1mo"))).callerComp ∧
    (fetchAssetHistoryInternal "AAPL" 24 "1mo" 3600 1000 0 []
      (.ok [{ date := 1, openP := 1, highP := 1, lowP := 1, closeP := 1,
              volume := 0, currency := "USD" }])).adapterCalls = 1 ∧
    getCacheKey "aapl" 24 "1mo" ≠ getCacheKey "aapl" 12 "1mo" ∧
    (regRun emptyReg [.arrive 1 (getCacheKey "aapl" 24 "1mo"),
      .arrive 2 (getCacheKey "aapl" 12 "1mo")]).started = [0, 1] := by
  have h1 := c1_concurrent_dedup.1 emptyReg (getCacheKey "aapl" 24 "1mo") 1 [2, 3] rfl
  have h2 := c1_concurrent_dedup.2.1 "AAPL" "1mo" 24 3600 1000 0 []
    (.ok [{ date := 1, openP := 1, highP := 1, lowP := 1, closeP := 1,
            volume := 0, currency := "USD" }]) (by decide)
  have h3 := c1_concurrent_dedup.2.2.1 "aapl" 24 "1mo" "aapl" 12 "1mo"
    (by decide) (by decide) (by decide)
  have h5 := c1_concurrent_dedup.2.2.2.2 emptyReg (getCacheKey "aapl" 24 "1mo")
    (getCacheKey "aapl" 12 "1mo") 1 2 h3 rfl rfl
  exact ⟨by simpa using h1.1, h1.2 2 (by decide), h2, h3, by simpa using h5.1⟩

/-- C2: completing a registered computation removes the registry entry for
its key unconditionally — for every prior state and every way the
computation settled (value, null, exception) — and per key the registry
moves absent to pending (on a registering arrival) and back to absent (on
completion), a joining arrival leaving the pending entry untouched, so no
resting completed state exists. -/
theorem c2_registry_cleanup :
    (∀ (s : RegState) (k : String) (o : CompOutcome),
      lookupKey ((regStep s (.complete k o)).inflight) k = none) ∧
    (∀ (s : RegState) (k : String) (c : Nat),
      lookupKey s.inflight k = none →
      lookupKey ((regStep s (.arrive c k)).inflight) k = some s.nextId) ∧
    (∀ (s : RegState) (k : String) (c : Nat) (id : Nat),
      lookupKey s.inflight k = some id →
      (regStep s (.arrive c k)).inflight = s.inflight) := by
  refine ⟨?_, ?_, ?_⟩
  · intro s k o
    have : (regStep s (.complete k o)).inflight =
        s.inflight.filter (fun e => !(e.1 == k)) := rfl
    rw [this]
    exact lookupKey_filter_ne s.inflight k
  · intro s k c h
    rw [regStep_register s c k h]
    rw [lookupKey_cons]
    simp
  · intro s k c id h
    rw [regStep_join s c k id h]

/-- C2 witness: on the key of `(AAPL, 24, 1mo)`, an arrival on the empty
registry makes the entry pending as computation `0`, and a completion —
here an exception — leaves no entry. -/
theorem c2_registry_cleanup_witness :
    lookupKey ((regStep (regStep emptyReg
      (.arrive 1 (getCacheKey "AAPL" 24 "1mo")))
      (.complete (getCacheKey "AAPL" 24 "1mo") .exn)).inflight)
      (getCacheKey "AAPL" 24 "1mo") = none ∧
    lookupKey ((regStep emptyReg
      (.arrive 1 (getCacheKey "AAPL" 24 "1mo"))).inflight)
      (getCacheKey "AAPL" 24 "1mo") = some 0 :=
  ⟨c2_registry_cleanup.1 (regStep emptyReg
      (.arrive 1 (getCacheKey "AAPL" 24 "1mo")))
      (getCacheKey "AAPL" 24 "1mo") .exn,
   c2_registry_cleanup.2.1 emptyReg (getCacheKey "AAPL" 24 "1mo") 1 rfl⟩

/-- C4 counterexample: a request whose adapter call throws while a
TTL-expired persisted point exists does return a success response — but its
source tag is the literal `stale_cache`, not `stale` as the claim states. -/
theorem c4_stale_fallback_counterexample :
    resultSource (fetchAssetHistoryInternal "AAPL" 24 "1mo" 3600 1000000 0
      [sampleRow 10 1 2] (.error "UNAVAILABLE")) = some "stale_cache" ∧
    resultSource (fetchAssetHistoryInternal "AAPL" 24 "1mo" 3600 1000000 0
      [sampleRow 10 1 2] (.error "UNAVAILABLE")) ≠ some "stale" := by
  exact ⟨rfl, by decide⟩

/-- C4 (amended): when the upstream adapter call of a cache-missing history
request throws, the orchestrator re-queries the span without the TTL
filter; if any persisted points exist it returns a success carrying exactly
those points, tagged `source = stale_cache` (the code literal standing for
the stale tag), with a non-empty warning; with no persisted points it
propagates the service-unavailable error. -/
theorem c4_stale_fallback_amended (symbol : String) (months : Nat)
    (interval : String) (ttl now startP : Nat) (db : List DbRow)
    (msg : String)
    (hmiss : histCacheHit db startP ttl now months interval = false) :
    (staleRows db startP ≠ [] →
      ∃ r w, (fetchAssetHistoryInternal symbol months interval ttl now startP
          db (.error msg)).result = .ok r ∧
        r.source = "stale_cache" ∧ r.warning = some w ∧ w ≠ "" ∧
        r.series = sortAsc (fun p => p.timestamp)
          ((staleRows db startP).map toSeriesPoint)) ∧
    (staleRows db startP = [] →
      (fetchAssetHistoryInternal symbol months interval ttl now startP db
        (.error msg)).result = .error .serviceUnavailable) := by
  constructor
  · intro hstale
    rw [fetch_adapter_error_stale symbol months interval ttl now startP db msg
      hmiss hstale]
    exact ⟨formatResponse (mkAsset (strUpper symbol)) (staleRows db startP)
        months interval "stale_cache" ttl
        (some "Data may be outdated due to external service unavailability"),
      "Data may be outdated due to external service unavailability",
      rfl, rfl, rfl, by decide, rfl⟩
  · intro hstale
    rw [fetch_adapter_error_nostale symbol months interval ttl now startP db
      msg hmiss hstale]

/-- C4 witness: a concrete request with one TTL-expired persisted point and
a throwing adapter yields a success tagged `stale_cache` with a non-empty
warning and that point as its series. -/
theorem c4_stale_fallback_amended_witness :
    ∃ r w, (fetchAssetHistoryInternal "AAPL" 24 "1mo" 3600 1000000 0
        [sampleRow 10 1 2] (.error "UNAVAILABLE")).result = .ok r ∧
      r.source = "stale_cache" ∧ r.warning = some w ∧ w ≠ "" ∧
      r.series = sortAsc (fun p => p.timestamp)
        ((staleRows [sampleRow 10 1 2] 0).map toSeriesPoint) :=
  (c4_stale_fallback_amended "AAPL" 24 "1mo" 3600 1000000 0
    [sampleRow 10 1 2] "UNAVAILABLE" (by decide)).1 (by decide)

/-- C5: the claim matches the declared intent (the orchestrator has a
`SYMBOL_NOT_FOUND` branch and the controller maps it to 404), but the
concrete adapter turns an empty upstream result — the symbol has no
historical data at all — into a thrown generic error, so the orchestrator
falls into the unavailable path: with persisted points present it serves
them as `stale_cache` instead of propagating the not-found error, and with
none it raises `SERVICE_UNAVAILABLE`; the `symbolNotFound` branch is
unreachable through this adapter. -/
lemma getHistoricalData_ok_nonempty (raw : Option (List RawPoint))
    (pts : List YPoint) (h : getHistoricalData raw = .ok pts) : pts ≠ [] := by
  cases raw with
  | none => cases h
  | some result =>
    simp only [getHistoricalData] at h
    by_cases hr : result.isEmpty
    · rw [if_pos hr] at h
      cases h
    · rw [if_neg hr] at h
      have := Except.ok.inj h
      rw [← this]
      intro hmap
      exact hr (by simpa [List.map_eq_nil_iff, List.isEmpty_iff] using hmap)

theorem c5_not_found_masked_by_stale_fallback :
    getHistoricalData (some []) = .error "No historical data available" ∧
    resultSource (getAssetHistory "GONE" 24 "1mo" 3600 1000000 0
      [sampleRow 10 1 2] (some [])) = some "stale_cache" ∧
    (getAssetHistory "GONE" 24 "1mo" 3600 1000000 0 [sampleRow 10 1 2]
      (some [])).result ≠ .error .symbolNotFound ∧
    (getAssetHistory "GONE" 24 "1mo" 3600 1000000 0 [] (some [])).result =
      .error .serviceUnavailable := by
  exact ⟨rfl, rfl, by decide, rfl⟩

lemma formatResponse_source (asset : Asset) (rows : List DbRow) (months : Nat)
    (interval source : String) (ttl : Nat) (warning : Option String) :
    (formatResponse asset rows months interval source ttl warning).source =
      source := rfl

lemma tryStaleCache_source (assetId : Nat) (symbol horizon : String)
    (predDb : List PredRow) (p : PredResponse)
    (h : tryStaleCache assetId symbol horizon predDb = some p) :
    p.source = "stale_cache" := by
  unfold tryStaleCache at h
  rcases hrows : predStaleRows predDb horizon with _ | ⟨r0, rest⟩
  · rw [hrows] at h
    cases h
  · rw [hrows] at h
    have := Option.some.inj h
    rw [← this]

lemma fetch_result_source (symbol : String) (months : Nat)
    (interval : String) (ttl now startP : Nat) (db : List DbRow)
    (ar : Except String (List YPoint)) (r : HistoryResponse)
    (h : (fetchAssetHistoryInternal symbol months interval ttl now startP db
      ar).result = .ok r) :
    r.source = "cache" ∨ r.source = "yahoo" ∨ r.source = "stale_cache" := by
  by_cases hh : histCacheHit db startP ttl now months interval
  · rw [fetch_hit symbol months interval ttl now startP db ar hh] at h
    have := Except.ok.inj h
    rw [← this]
    exact Or.inl rfl
  · rw [Bool.not_eq_true] at hh
    cases ar with
    | error msg =>
      by_cases hs : staleRows db startP = []
      · rw [fetch_adapter_error_nostale symbol months interval ttl now startP
          db msg hh hs] at h
        cases h
      · rw [fetch_adapter_error_stale symbol months interval ttl now startP
          db msg hh hs] at h
        have := Except.ok.inj h
        rw [← this]
        exact Or.inr (Or.inr rfl)
    | ok pts =>
      unfold fetchAssetHistoryInternal at h
      rw [hh] at h
      simp only [Bool.false_eq_true, if_false] at h
      by_cases hp : pts.isEmpty
      · rw [if_pos hp] at h
        cases h
      · rw [if_neg hp] at h
        rcases hup : upsertLoop now pts db with e | ⟨rows, db2⟩
        · rw [hup] at h
          cases h
        · rw [hup] at h
          have := Except.ok.inj h
          rw [← this]
          exact Or.inr (Or.inl rfl)

lemma pred_result_source (assetId : Nat) (symbol horizon : String)
    (ttl now : Nat) (predDb : List PredRow)
    (histOracle : String → Nat → String → Nat → Except FetchErr HistoryResponse)
    (mlOracle : Option MlResult) (p : PredResponse)
    (h : (fetchPredictionInternal assetId symbol horizon ttl now predDb
      histOracle mlOracle).result = some p) :
    p.source = "cache" ∨ p.source = "ml_service" ∨ p.source = "stale_cache" := by
  unfold fetchPredictionInternal at h
  rcases hrows : predFreshRows predDb horizon ttl now with _ | ⟨r0, rest⟩
  · rw [hrows] at h
    simp only at h
    rcases hho : histOracle symbol (max 24 (parseHorizon horizon * 2)) "1mo"
        3600 with e | hd
    · rw [hho] at h
      simp only at h
      exact Or.inr (Or.inr (tryStaleCache_source assetId symbol horizon
        predDb p h))
    · rw [hho] at h
      simp only at h
      by_cases hlen : hd.series.length < 6
      · rw [if_pos hlen] at h
        cases h
      · rw [if_neg hlen] at h
        cases mlOracle with
        | none =>
          exact Or.inr (Or.inr (tryStaleCache_source assetId symbol horizon
            predDb p h))
        | some mlResult =>
          have := Option.some.inj h
          rw [← this]
          exact Or.inr (Or.inl rfl)
  · rw [hrows] at h
    simp only at h
    have := Option.some.inj h
    rw [← this]
    exact Or.inl rfl

/-- C6 counterexample: a successful cache-missing history fetch is tagged
with the literal `yahoo`, which is none of the source values `cache`,
`upstream`, `stale` the claim allows for history responses. -/
theorem c6_source_values_counterexample :
    resultSource (fetchAssetHistoryInternal "AAPL" 1 "1mo" 3600 0 0 []
      (.ok [{ date := 1, openP := 1, highP := 1, lowP := 1, closeP := 1,
              volume := 0, currency := "USD" }])) = some "yahoo" ∧
    ¬("yahoo" = "cache" ∨ "yahoo" = "upstream" ∨ "yahoo" = "stale") := by
  exact ⟨rfl, by decide⟩

/-- C6 (amended): every successful history response carries a source equal
to one of the code literals `cache` (fresh persisted data), `yahoo` (fresh
adapter fetch) or `stale_cache` (stale fallback), and every successful
prediction response one of `cache`, `ml_service` or `stale_cache`; no other
value occurs. -/
theorem c6_source_values_amended :
    (∀ (symbol interval : String) (months ttl now startP : Nat)
       (db : List DbRow) (ar : Except String (List YPoint))
       (r : HistoryResponse),
      (fetchAssetHistoryInternal symbol months interval ttl now startP db
        ar).result = .ok r →
      r.source = "cache" ∨ r.source = "yahoo" ∨ r.source = "stale_cache") ∧
    (∀ (assetId : Nat) (symbol horizon : String) (ttl now : Nat)
       (predDb : List PredRow)
       (histOracle : String → Nat → String → Nat → Except FetchErr HistoryResponse)
       (mlOracle : Option MlResult) (p : PredResponse),
      (fetchPredictionInternal assetId symbol horizon ttl now predDb
        histOracle mlOracle).result = some p →
      p.source = "cache" ∨ p.source = "ml_service" ∨
        p.source = "stale_cache") := by
  constructor
  · intro symbol interval months ttl now startP db ar r h
    exact fetch_result_source symbol months interval ttl now startP db ar r h
  · intro assetId symbol horizon ttl now predDb histOracle mlOracle p h
    exact pred_result_source assetId symbol horizon ttl now predDb histOracle
      mlOracle p h

/-- C6 witness: the source tag of a concrete successful cache-missing
history fetch is among the amended history value set. -/
theorem c6_source_values_amended_witness :
    (formatResponse (mkAsset "AAPL")
        [mkRow 0 { date := 1, openP := 1, highP := 1, lowP := 1, closeP := 1,
                   volume := 0, currency := "USD" }]
        1 "1mo" "yahoo" 3600 none).source = "cache" ∨
    (formatResponse (mkAsset "AAPL")
        [mkRow 0 { date := 1, openP := 1, highP := 1, lowP := 1, closeP := 1,
                   volume := 0, currency := "USD" }]
        1 "1mo" "yahoo" 3600 none).source = "yahoo" ∨
    (formatResponse (mkAsset "AAPL")
        [mkRow 0 { date := 1, openP := 1, highP := 1, lowP := 1, closeP := 1,
                   volume := 0, currency := "USD" }]
        1 "1mo" "yahoo" 3600 none).source = "stale_cache" := by
  exact c6_source_values_amended.1 "AAPL" "1mo" 1 3600 0 0 []
    (.ok [{ date := 1, openP := 1, highP := 1, lowP := 1, closeP := 1,
            volume := 0, currency := "USD" }]) _ (by rfl)

/-- C7: on a prediction cache miss the orchestrator calls the history
pipeline with `max(24, 2 * horizonMonths)` months at monthly granularity
(the call is recorded before any ML-adapter work), and when the obtained
history has fewer than 6 observations the call returns the absent result
with no ML invocation and no stale-cache fallback query. -/
theorem c7_prediction_history_prerequisite (assetId : Nat)
    (symbol horizon : String) (ttl now : Nat) (predDb : List PredRow)
    (histOracle : String → Nat → String → Nat → Except FetchErr HistoryResponse)
    (mlOracle : Option MlResult)
    (hmiss : predFreshRows predDb horizon ttl now = []) :
    ((fetchPredictionInternal assetId symbol horizon ttl now predDb histOracle
        mlOracle).histCall =
      some (symbol, max 24 (2 * parseHorizon horizon), "1mo", 3600)) ∧
    ((fetchPredictionInternal assetId symbol horizon ttl now predDb histOracle
        mlOracle).mlCalls = 1 →
      (fetchPredictionInternal assetId symbol horizon ttl now predDb
        histOracle mlOracle).histCall ≠ none) ∧
    (∀ hd, histOracle symbol (max 24 (2 * parseHorizon horizon)) "1mo" 3600 =
        .ok hd →
      hd.series.length < 6 →
      (fetchPredictionInternal assetId symbol horizon ttl now predDb
        histOracle mlOracle).result = none ∧
      (fetchPredictionInternal assetId symbol horizon ttl now predDb
        histOracle mlOracle).mlCalls = 0 ∧
      (fetchPredictionInternal assetId symbol horizon ttl now predDb
        histOracle mlOracle).staleQueries = 0) := by
  have hcomm : max 24 (2 * parseHorizon horizon) =
      max 24 (parseHorizon horizon * 2) := by
    rw [Nat.mul_comm]
  refine ⟨?_, ?_, ?_⟩
  · rw [hcomm]
    unfold fetchPredictionInternal
    rw [hmiss]
    rcases hho : histOracle symbol (max 24 (parseHorizon horizon * 2)) "1mo"
        3600 with e | hd
    · simp [hho]
    · by_cases hlen : hd.series.length < 6
      · simp [hho, hlen]
      · cases mlOracle <;> simp [hho, hlen]
  · intro hml
    unfold fetchPredictionInternal at *
    rw [hmiss] at *
    rcases hho : histOracle symbol (max 24 (parseHorizon horizon * 2)) "1mo"
        3600 with e | hd
    · simp [hho]
    · by_cases hlen : hd.series.length < 6
      · simp [hho, hlen]
      · cases mlOracle <;> simp [hho, hlen]
  · intro hd hho hlen
    rw [hcomm] at hho
    unfold fetchPredictionInternal
    rw [hmiss]
    simp [hho, hlen]

/-- C7 witness: a concrete prediction miss with an empty prediction store
and a history pipeline returning an empty series requests
`(AAPL, 24, 1mo, 3600)` and fails hard with the absent result, zero
ML calls and zero stale queries. -/
theorem c7_prediction_history_prerequisite_witness :
    ((fetchPredictionInternal 7 "AAPL" "6m" 3600 100 []
        (fun _ _ _ _ => .ok (formatResponse (mkAsset "AAPL") [] 24 "1mo"
          "cache" 3600 none)) none).histCall =
      some ("AAPL", max 24 (2 * parseHorizon "6m"), "1mo", 3600)) ∧
    ((fetchPredictionInternal 7 "AAPL" "6m" 3600 100 []
        (fun _ _ _ _ => .ok (formatResponse (mkAsset "AAPL") [] 24 "1mo"
          "cache" 3600 none)) none).result = none) := by
  have h := c7_prediction_history_prerequisite 7 "AAPL" "6m" 3600 100 []
    (fun _ _ _ _ => .ok (formatResponse (mkAsset "AAPL") [] 24 "1mo" "cache"
      3600 none)) none rfl
  exact ⟨h.1, (h.2.2 (formatResponse (mkAsset "AAPL") [] 24 "1mo" "cache"
    3600 none) rfl (by decide)).1⟩

lemma upsertLoop_ok (now : Nat) :
    ∀ (pts : List YPoint) (db : List DbRow),
      upsertLoop now pts db =
        .ok ((pts.filter fun p =>
            decide (p.currency ∈ allowedCurrencies)).map (mkRow now),
          pts.foldl (fun d p =>
            if p.currency ∈ allowedCurrencies then upsertRow d (mkRow now p)
            else d) db) := by
  intro pts
  induction pts with
  | nil => intro db; rfl
  | cons p ps ih =>
    intro db
    by_cases hc : p.currency ∈ allowedCurrencies
    · simp [upsertLoop, dbUpsert, hc, ih, List.filter_cons]
    · simp [upsertLoop, dbUpsert, hc, ih, List.filter_cons]

lemma length_filter_add_not {α : Type} (q : α → Bool) (l : List α) :
    (l.filter q).length + (l.filter fun a => !(q a)).length = l.length := by
  induction l with
  | nil => rfl
  | cons a t ih =>
    by_cases h : q a = true
    · simp [List.filter_cons, h]
      omega
    · simp [List.filter_cons, h]
      omega

/-- A batch of ten adapter points whose fourth point carries the disallowed
currency `GBP`. -/
def samplePts10 : List YPoint :=
  (List.range 10).map fun i =>
    { date := i + 1, openP := 1, highP := 2, lowP := 1, closeP := 2
      volume := 3, currency := if i = 3 then "GBP" else "USD" }

/-- C8: during a history cache miss the sequential upsert loop skips every
point whose currency violates the store constraint and upserts all others —
it never rethrows the constraint violation — so the loop yields exactly the
allowed points; a cache-missing request over a nonempty batch still
succeeds with a `yahoo`-tagged response; and the concrete batch of ten
points with one disallowed currency persists exactly nine rows with no
error escaping to the caller. -/
theorem c8_currency_skip :
    (∀ (now : Nat) (pts : List YPoint) (db : List DbRow),
      upsertLoop now pts db =
        .ok ((pts.filter fun p =>
            decide (p.currency ∈ allowedCurrencies)).map (mkRow now),
          pts.foldl (fun d p =>
            if p.currency ∈ allowedCurrencies then upsertRow d (mkRow now p)
            else d) db)) ∧
    (∀ (now : Nat) (pts : List YPoint) (db : List DbRow),
      pts.length = 10 →
      (pts.filter fun p =>
        !(decide (p.currency ∈ allowedCurrencies))).length = 1 →
      ∃ rows db2, upsertLoop now pts db = .ok (rows, db2) ∧
        rows.length = 9) ∧
    (∀ (symbol interval : String) (months ttl now startP : Nat)
       (db : List DbRow) (pts : List YPoint),
      histCacheHit db startP ttl now months interval = false → pts ≠ [] →
      ∃ r, (fetchAssetHistoryInternal symbol months interval ttl now startP
          db (.ok pts)).result = .ok r ∧ r.source = "yahoo") ∧
    ((fetchAssetHistoryInternal "AAPL" 24 "1mo" 3600 1000 0 []
        (.ok samplePts10)).dbAfter.length = 9 ∧
      resultSource (fetchAssetHistoryInternal "AAPL" 24 "1mo" 3600 1000 0 []
        (.ok samplePts10)) = some "yahoo") := by
  refine ⟨upsertLoop_ok, ?_, ?_, by decide, rfl⟩
  · intro now pts db hlen hbad
    refine ⟨(pts.filter fun p =>
        decide (p.currency ∈ allowedCurrencies)).map (mkRow now),
      pts.foldl (fun d p =>
        if p.currency ∈ allowedCurrencies then upsertRow d (mkRow now p)
        else d) db, upsertLoop_ok now pts db, ?_⟩
    rw [List.length_map]
    have := length_filter_add_not
      (fun p => decide (p.currency ∈ allowedCurrencies)) pts
    omega
  · intro symbol interval months ttl now startP db pts hmiss hne
    unfold fetchAssetHistoryInternal
    rw [hmiss]
    simp only [Bool.false_eq_true, if_false]
    have hp : pts.isEmpty = false := by
      simpa [List.isEmpty_iff] using hne
    rw [hp]
    simp only [Bool.false_eq_true, if_false]
    rw [upsertLoop_ok now pts db]
    exact ⟨formatResponse (mkAsset (strUpper symbol))
      ((pts.filter fun p =>
        decide (p.currency ∈ allowedCurrencies)).map (mkRow now))
      months interval "yahoo" ttl none, rfl, rfl⟩

/-- C8 witness: the concrete ten-point batch with one GBP point upserts
exactly nine rows from an empty store without an exception. -/
theorem c8_currency_skip_witness :
    ∃ rows db2, upsertLoop 1000 samplePts10 [] = .ok (rows, db2) ∧
      rows.length = 9 :=
  c8_currency_skip.2.1 1000 samplePts10 [] (by decide) (by decide)

end NextWorth
